import Mathlib

/-! Verification of the recurring-event subsystem of the MyPetPals repository.

The development shallowly embeds:
* the recurrence expansion (`getNextDate`, `generateRecurringDates` from
  `EventFormDialog`), over a calendar datetime model mirroring the
  `date-fns` helpers `addDays`, `addWeeks`, `addMonths`, `addYears`,
  `isBefore`/`isEqual`;
* the series-creation branch of `handleSubmit` (anchor + child inserts);
* the whole-series-edit branch of `handleSubmit`;
* the read-side grouping of `PetDetail.tsx`;
* the date-shift logic of `ShiftRecurringDialog.tsx` (`differenceInDays`,
  `differenceInHours % 24`, `addDays`/`addHours` on epoch time);
* the reminder due-check of `supabase/functions/send-reminder-emails`.
-/

namespace MyPetPals

/-! Part 1: calendar datetime model.

A `DateTime` is a Gregorian calendar date plus a time of day in minutes.
`key` encodes the lexicographic (year, month, day, minute) order into a
single natural number; for valid datetimes this order coincides with the
chronological (epoch-milliseconds) order that `isBefore`/`isEqual` of
`date-fns` compare, so `key` comparison models timestamp comparison. -/

structure DateTime where
  year : Nat
  month : Nat
  day : Nat
  minute : Nat
deriving DecidableEq, Repr

/-- Gregorian leap-year rule. -/
def isLeapYear (y : Nat) : Bool :=
  (y % 4 == 0 && y % 100 != 0) || y % 400 == 0

/-- Number of days in a month of a given year. -/
def daysInMonth (y m : Nat) : Nat :=
  if m = 2 then (if isLeapYear y then 29 else 28)
  else if m = 4 ∨ m = 6 ∨ m = 9 ∨ m = 11 then 30
  else 31

/-- A structurally valid calendar datetime. -/
def DateTime.Valid (d : DateTime) : Prop :=
  1 ≤ d.month ∧ d.month ≤ 12 ∧ 1 ≤ d.day ∧ d.day ≤ daysInMonth d.year d.month ∧
    d.minute < 1440

instance (d : DateTime) : Decidable d.Valid := by
  unfold DateTime.Valid; infer_instance

/-- Order-encoding of a datetime (lexicographic on year, month, day, minute). -/
def DateTime.key (d : DateTime) : Nat :=
  ((d.year * 13 + d.month) * 32 + d.day) * 1440 + d.minute

/-- Advance a datetime by one calendar day, carrying over month and year
boundaries (the primitive underlying the `addDays` model). -/
def nextDay (d : DateTime) : DateTime :=
  if d.day < daysInMonth d.year d.month then { d with day := d.day + 1 }
  else if d.month < 12 then { d with month := d.month + 1, day := 1 }
  else { d with year := d.year + 1, month := 1, day := 1 }

/-- Model of `date-fns` `addDays date n`: advance `n` calendar days. -/
def addDays (d : DateTime) : Nat → DateTime
  | 0 => d
  | n + 1 => addDays (nextDay d) n

/-- Model of `date-fns` `addWeeks date n` = `addDays date (7 * n)`. -/
def addWeeks (d : DateTime) (n : Nat) : DateTime :=
  addDays d (7 * n)

/-- Model of `date-fns` `addMonths date n`: advance `n` calendar months,
clamping the day to the length of the target month (Jan 31 + 1 month =
Feb 28/29). -/
def addMonths (d : DateTime) (n : Nat) : DateTime :=
  let total := d.year * 12 + (d.month - 1) + n
  let y := total / 12
  let m := total % 12 + 1
  { d with year := y, month := m, day := min d.day (daysInMonth y m) }

/-- Model of `date-fns` `addYears date n` (calendar years, Feb 29 clamps). -/
def addYears (d : DateTime) (n : Nat) : DateTime :=
  addMonths d (12 * n)

/-! Part 2: recurrence expansion (`EventFormDialog`). -/

inductive RecurrenceType where
  | none
  | daily
  | weekly
  | monthly
  | yearly
deriving DecidableEq, Repr

/-- `getNextDate` of `EventFormDialog`: the next occurrence after `date`
for a recurrence type and interval; the `default` branch returns the date
unchanged. -/
def getNextDate (date : DateTime) (type : RecurrenceType) (interval : Nat) :
    DateTime :=
  match type with
  | .daily => addDays date interval
  | .weekly => addWeeks date interval
  | .monthly => addMonths date interval
  | .yearly => addYears date interval
  | .none => date

/-- The `while (count < maxOccurrences)` loop of `generateRecurringDates`,
with `fuel = maxOccurrences - count` remaining push-slots: each iteration
advances `currentDate`, pushes it while it is `isBefore`-or-`isEqual` the
end date, and breaks otherwise. -/
def genLoop (endDate : DateTime) (type : RecurrenceType) (interval : Nat) :
    DateTime → Nat → List DateTime
  | _, 0 => []
  | currentDate, fuel + 1 =>
    let next := getNextDate currentDate type interval
    if next.key ≤ endDate.key then
      next :: genLoop endDate type interval next fuel
    else
      []

/-- `generateRecurringDates` of `EventFormDialog`: the list starts with
`startDate` and the loop may push at most `maxOccurrences = 365` further
dates. -/
def generateRecurringDates (startDate endDate : DateTime)
    (type : RecurrenceType) (interval : Nat) : List DateTime :=
  startDate :: genLoop endDate type interval startDate 365

/-! Part 3: facts about the calendar steps. -/

lemma daysInMonth_pos (y m : Nat) : 1 ≤ daysInMonth y m := by
  unfold daysInMonth
  split
  · split <;> norm_num
  · split <;> norm_num

lemma daysInMonth_le (y m : Nat) : daysInMonth y m ≤ 31 := by
  unfold daysInMonth
  split
  · split <;> norm_num
  · split <;> norm_num

lemma nextDay_valid (d : DateTime) (h : d.Valid) : (nextDay d).Valid := by
  obtain ⟨h1, h2, h3, h4, h5⟩ := h
  have hp2 := daysInMonth_pos d.year (d.month + 1)
  have hp3 := daysInMonth_pos (d.year + 1) 1
  unfold nextDay
  split
  · simp only [DateTime.Valid]
    omega
  · split
    · simp only [DateTime.Valid]
      omega
    · simp only [DateTime.Valid]
      omega

lemma nextDay_key_lt (d : DateTime) (h : d.Valid) : d.key < (nextDay d).key := by
  obtain ⟨h1, h2, h3, h4, h5⟩ := h
  have hle := daysInMonth_le d.year d.month
  unfold nextDay
  split
  · simp only [DateTime.key]
    omega
  · split
    · simp only [DateTime.key]
      omega
    · simp only [DateTime.key]
      omega

lemma addDays_valid (n : Nat) : ∀ d : DateTime, d.Valid → (addDays d n).Valid := by
  induction n with
  | zero => intro d h; exact h
  | succ n ih => intro d h; exact ih _ (nextDay_valid d h)

lemma addDays_key_le (n : Nat) : ∀ d : DateTime, d.Valid → d.key ≤ (addDays d n).key := by
  induction n with
  | zero => intro d _; exact le_refl _
  | succ n ih =>
    intro d h
    exact le_trans (le_of_lt (nextDay_key_lt d h)) (ih _ (nextDay_valid d h))

lemma addDays_key_lt (n : Nat) (hn : 1 ≤ n) (d : DateTime) (h : d.Valid) :
    d.key < (addDays d n).key := by
  obtain ⟨m, rfl⟩ : ∃ m, n = m + 1 := ⟨n - 1, by omega⟩
  exact lt_of_lt_of_le (nextDay_key_lt d h) (addDays_key_le m _ (nextDay_valid d h))

lemma addMonths_valid (d : DateTime) (n : Nat) (h : d.Valid) : (addMonths d n).Valid := by
  obtain ⟨h1, h2, h3, h4, h5⟩ := h
  have hmod : (d.year * 12 + (d.month - 1) + n) % 12 < 12 := Nat.mod_lt _ (by norm_num)
  have hp := daysInMonth_pos ((d.year * 12 + (d.month - 1) + n) / 12)
    ((d.year * 12 + (d.month - 1) + n) % 12 + 1)
  simp only [addMonths, DateTime.Valid]
  refine ⟨by omega, by omega, le_min h3 hp, min_le_right _ _, h5⟩

lemma addMonths_key_lt (d : DateTime) (n : Nat) (hn : 1 ≤ n) (h : d.Valid) :
    d.key < (addMonths d n).key := by
  obtain ⟨h1, h2, h3, h4, h5⟩ := h
  have hle := daysInMonth_le d.year d.month
  have hdm := Nat.div_add_mod (d.year * 12 + (d.month - 1) + n) 12
  have hmod : (d.year * 12 + (d.month - 1) + n) % 12 < 12 := Nat.mod_lt _ (by norm_num)
  have hp := daysInMonth_pos ((d.year * 12 + (d.month - 1) + n) / 12)
    ((d.year * 12 + (d.month - 1) + n) % 12 + 1)
  simp only [addMonths, DateTime.key]
  omega

lemma getNextDate_valid (d : DateTime) (t : RecurrenceType) (k : Nat) (h : d.Valid) :
    (getNextDate d t k).Valid := by
  cases t with
  | none => exact h
  | daily => exact addDays_valid k d h
  | weekly => exact addDays_valid (7 * k) d h
  | monthly => exact addMonths_valid d k h
  | yearly => exact addMonths_valid d (12 * k) h

lemma getNextDate_key_lt (d : DateTime) (t : RecurrenceType) (k : Nat)
    (ht : t ≠ RecurrenceType.none) (hk : 1 ≤ k) (h : d.Valid) :
    d.key < (getNextDate d t k).key := by
  cases t with
  | none => exact absurd rfl ht
  | daily => exact addDays_key_lt k hk d h
  | weekly => exact addDays_key_lt (7 * k) (by omega) d h
  | monthly => exact addMonths_key_lt d k hk h
  | yearly => exact addMonths_key_lt d (12 * k) (by omega) h

/-! Part 4: facts about the expansion loop. -/

lemma genLoop_length_le (e : DateTime) (t : RecurrenceType) (k : Nat) :
    ∀ (f : Nat) (c : DateTime), (genLoop e t k c f).length ≤ f := by
  intro f
  induction f with
  | zero => intro c; simp [genLoop]
  | succ f ih =>
    intro c
    simp only [genLoop]
    split
    · simpa using ih _
    · simp

lemma genLoop_mem_le (e : DateTime) (t : RecurrenceType) (k : Nat) :
    ∀ (f : Nat) (c : DateTime), ∀ d ∈ genLoop e t k c f, d.key ≤ e.key := by
  intro f
  induction f with
  | zero => intro c d hd; simp [genLoop] at hd
  | succ f ih =>
    intro c d hd
    simp only [genLoop] at hd
    split at hd
    · rcases List.mem_cons.mp hd with h | h
      · subst h; assumption
      · exact ih _ d h
    · simp at hd

lemma genLoop_chain (e : DateTime) (t : RecurrenceType) (k : Nat)
    (ht : t ≠ RecurrenceType.none) (hk : 1 ≤ k) :
    ∀ (f : Nat) (c : DateTime), c.Valid →
      List.Chain (fun a b => b = getNextDate a t k ∧ a.key < b.key ∧ b.Valid) c
        (genLoop e t k c f) := by
  intro f
  induction f with
  | zero => intro c _; simp [genLoop]
  | succ f ih =>
    intro c hc
    simp only [genLoop]
    split
    · exact List.Chain.cons
        ⟨rfl, getNextDate_key_lt c t k ht hk hc, getNextDate_valid c t k hc⟩
        (ih _ (getNextDate_valid c t k hc))
    · exact List.Chain.nil

lemma genLoop_break (e : DateTime) (t : RecurrenceType) (k : Nat) :
    ∀ (f : Nat) (c : DateTime), (genLoop e t k c f).length < f →
      e.key <
        (getNextDate ((c :: genLoop e t k c f).getLast (List.cons_ne_nil c _)) t k).key := by
  intro f
  induction f with
  | zero => intro c h; simp at h
  | succ f ih =>
    intro c h
    by_cases hcmp : (getNextDate c t k).key ≤ e.key
    · have hunf : genLoop e t k c (f + 1)
          = getNextDate c t k :: genLoop e t k (getNextDate c t k) f := by
        simp [genLoop, hcmp]
      rw [hunf] at h ⊢
      have hlen : (genLoop e t k (getNextDate c t k) f).length < f := by
        simpa using h
      have hlast : (c :: getNextDate c t k :: genLoop e t k (getNextDate c t k) f).getLast
          (List.cons_ne_nil _ _)
          = (getNextDate c t k :: genLoop e t k (getNextDate c t k) f).getLast
            (List.cons_ne_nil _ _) :=
        List.getLast_cons (List.cons_ne_nil _ _)
      rw [hlast]
      exact ih _ hlen
    · have hunf : genLoop e t k c (f + 1) = [] := by
        simp [genLoop, hcmp]
      rw [hunf]
      simpa using lt_of_not_le hcmp

lemma genLoop_none (e : DateTime) (k : Nat) : ∀ (f : Nat) (c : DateTime),
    genLoop e RecurrenceType.none k c f
      = if c.key ≤ e.key then List.replicate f c else [] := by
  intro f
  induction f with
  | zero => intro c; simp [genLoop]
  | succ f ih =>
    intro c
    simp only [genLoop, getNextDate]
    split
    · next h => rw [ih c, if_pos h, List.replicate_succ]
    · rfl

instance : IsTrans DateTime (fun a b => a.key < b.key) :=
  ⟨fun _ _ _ => Nat.lt_trans⟩

/-! Part 5: claims about the recurrence expansion. -/

/-- C1: for every valid start, recurrence type in {daily, weekly, monthly,
yearly}, interval at least 1, and end with start before-or-equal end, the
expansion starts at the start date, each subsequent element is exactly
`getNextDate` of the previous (one T-unit times the interval later), the
sequence is strictly increasing, every element is at most the end date,
and — unless the 365-push cap was reached — one further step would exceed
the end date. -/
theorem generateRecurringDates_correct (start endD : DateTime)
    (t : RecurrenceType) (k : Nat) (hv : start.Valid) (hk : 1 ≤ k)
    (ht : t ≠ RecurrenceType.none) (hse : start.key ≤ endD.key) :
    (generateRecurringDates start endD t k).head? = some start ∧
    List.Chain' (fun a b => b = getNextDate a t k)
      (generateRecurringDates start endD t k) ∧
    List.Pairwise (fun a b => a.key < b.key)
      (generateRecurringDates start endD t k) ∧
    (∀ d ∈ generateRecurringDates start endD t k, d.key ≤ endD.key) ∧
    ((generateRecurringDates start endD t k).length < 366 →
      endD.key <
        (getNextDate ((generateRecurringDates start endD t k).getLast
          (by simp [generateRecurringDates])) t k).key) := by
  have hchain : List.Chain
      (fun a b => b = getNextDate a t k ∧ a.key < b.key ∧ b.Valid) start
      (genLoop endD t k start 365) :=
    genLoop_chain endD t k ht hk 365 start hv
  refine ⟨rfl, ?_, ?_, ?_, ?_⟩
  · show List.Chain (fun a b => b = getNextDate a t k) start
      (genLoop endD t k start 365)
    exact List.Chain.imp (fun a b hab => hab.1) hchain
  · refine List.chain'_iff_pairwise.mp ?_
    show List.Chain (fun a b : DateTime => a.key < b.key) start
      (genLoop endD t k start 365)
    exact List.Chain.imp (fun a b hab => hab.2.1) hchain
  · intro d hd
    rcases List.mem_cons.mp hd with h | h
    · subst h; exact hse
    · exact genLoop_mem_le endD t k 365 start d h
  · intro hlen
    have hlen2 : (genLoop endD t k start 365).length < 365 := by
      have h1 : (genLoop endD t k start 365).length + 1 < 366 := by
        simpa [generateRecurringDates] using hlen
      omega
    exact genLoop_break endD t k 365 start hlen2

/-- C1 witness: the spec's concrete monthly scenario — start Jan 31 2025
09:00, monthly, interval 1, end Apr 30 2025 23:59. -/
theorem generateRecurringDates_correct_witness :
    (⟨2025, 1, 31, 540⟩ : DateTime).Valid ∧ 1 ≤ 1 ∧
    RecurrenceType.monthly ≠ RecurrenceType.none ∧
    (⟨2025, 1, 31, 540⟩ : DateTime).key ≤ (⟨2025, 4, 30, 1439⟩ : DateTime).key ∧
    ((generateRecurringDates ⟨2025, 1, 31, 540⟩ ⟨2025, 4, 30, 1439⟩
        RecurrenceType.monthly 1).head? = some ⟨2025, 1, 31, 540⟩ ∧
      List.Chain' (fun a b => b = getNextDate a RecurrenceType.monthly 1)
        (generateRecurringDates ⟨2025, 1, 31, 540⟩ ⟨2025, 4, 30, 1439⟩
          RecurrenceType.monthly 1) ∧
      List.Pairwise (fun a b => a.key < b.key)
        (generateRecurringDates ⟨2025, 1, 31, 540⟩ ⟨2025, 4, 30, 1439⟩
          RecurrenceType.monthly 1) ∧
      (∀ d ∈ generateRecurringDates ⟨2025, 1, 31, 540⟩ ⟨2025, 4, 30, 1439⟩
          RecurrenceType.monthly 1, d.key ≤ (⟨2025, 4, 30, 1439⟩ : DateTime).key) ∧
      ((generateRecurringDates ⟨2025, 1, 31, 540⟩ ⟨2025, 4, 30, 1439⟩
          RecurrenceType.monthly 1).length < 366 →
        (⟨2025, 4, 30, 1439⟩ : DateTime).key <
          (getNextDate ((generateRecurringDates ⟨2025, 1, 31, 540⟩
              ⟨2025, 4, 30, 1439⟩ RecurrenceType.monthly 1).getLast
            (by simp [generateRecurringDates])) RecurrenceType.monthly
            1).key)) :=
  ⟨by decide, le_refl 1, by decide, by decide,
    generateRecurringDates_correct ⟨2025, 1, 31, 540⟩ ⟨2025, 4, 30, 1439⟩
      RecurrenceType.monthly 1 (by decide) (le_refl 1) (by decide) (by decide)⟩

set_option maxRecDepth 8000 in
/-- C6 counterexample: with a daily rule and a far end date the expansion
returns 366 dates (the start plus 365 pushed occurrences), so its length
is not bounded by 365 as claimed. -/
theorem generateRecurringDates_cap_counterexample :
    ¬ (generateRecurringDates ⟨2020, 1, 1, 0⟩ ⟨2030, 1, 1, 0⟩
        RecurrenceType.daily 1).length ≤ 365 := by
  decide

/-- C6 amended: the expansion's length never exceeds 366 — the start date
plus at most `maxOccurrences = 365` pushed occurrences — no matter how far
the end date exceeds the start; reaching the cap truncates the sequence
(the function is total and never fails). -/
theorem generateRecurringDates_length_le (startDate endDate : DateTime)
    (type : RecurrenceType) (interval : Nat) :
    (generateRecurringDates startDate endDate type interval).length ≤ 366 := by
  have h := genLoop_length_le endDate type interval 365 startDate
  simp only [generateRecurringDates, List.length_cons]
  omega

set_option maxRecDepth 8000 in
/-- C7 counterexample: with type `none` and start before-or-equal end, the
loop's `default` branch returns the date unchanged, so the candidate never
exceeds the end date and the loop pushes 365 duplicate copies of the start
date: the result is not `[start]`. -/
theorem generateRecurringDates_none_counterexample :
    generateRecurringDates ⟨2025, 1, 1, 540⟩ ⟨2025, 1, 2, 0⟩
        RecurrenceType.none 1
      ≠ [⟨2025, 1, 1, 540⟩] := by
  decide

/-- C7 amended: with type `none` the expansion returns `[start]` exactly
when the start is after the end date; when start is before-or-equal end it
returns the start followed by 365 duplicated copies of it. (The
application never reaches this case: `handleSubmit` only calls the
expansion when `recurrence_type !== 'none'`.) -/
theorem generateRecurringDates_none (startDate endDate : DateTime) (k : Nat) :
    generateRecurringDates startDate endDate RecurrenceType.none k
      = if startDate.key ≤ endDate.key
        then startDate :: List.replicate 365 startDate
        else [startDate] := by
  simp only [generateRecurringDates]
  rw [genLoop_none]
  split <;> rfl

/-! Part 6: the `pet_events` persistence model.

A `PetEventInsert` mirrors the payload built by `handleSubmit`
(`baseEventData`); a `PetEvent` is a stored row (id assigned by the store,
`reminder_completed` defaulting to `false` per the table definition). -/

structure PetEventInsert where
  pet_id : Nat
  user_id : Nat
  title : String
  event_type : String
  custom_type : Option String
  location : Option String
  description : Option String
  event_date : DateTime
  photo_url : Option String
  is_reminder : Bool
  reminder_hours_before : Option Nat
  recurrence_type : RecurrenceType
  recurrence_interval : Option Nat
  recurrence_end_date : Option DateTime
  parent_event_id : Option Nat
deriving DecidableEq, Repr

structure PetEvent where
  id : Nat
  pet_id : Nat
  user_id : Nat
  title : String
  event_type : String
  custom_type : Option String
  location : Option String
  description : Option String
  event_date : DateTime
  photo_url : Option String
  is_reminder : Bool
  reminder_hours_before : Option Nat
  recurrence_type : RecurrenceType
  recurrence_interval : Option Nat
  recurrence_end_date : Option DateTime
  parent_event_id : Option Nat
  reminder_completed : Bool
deriving DecidableEq, Repr

/-- A stored row resulting from an insert payload, with the id assigned by
the store and `reminder_completed` at its column default `false`. -/
def toRow (id : Nat) (r : PetEventInsert) : PetEvent :=
  { id := id
    pet_id := r.pet_id
    user_id := r.user_id
    title := r.title
    event_type := r.event_type
    custom_type := r.custom_type
    location := r.location
    description := r.description
    event_date := r.event_date
    photo_url := r.photo_url
    is_reminder := r.is_reminder
    reminder_hours_before := r.reminder_hours_before
    recurrence_type := r.recurrence_type
    recurrence_interval := r.recurrence_interval
    recurrence_end_date := r.recurrence_end_date
    parent_event_id := r.parent_event_id
    reminder_completed := false }

/-- Model of the JS `s.trim() || null` idiom. -/
def strOrNone (s : String) : Option String :=
  if s.trim = "" then Option.none else some s.trim

/-- The validated form state feeding `baseEventData`. -/
structure EventFormData where
  title : String
  event_type : String
  custom_type : String
  location : String
  description : String
  is_reminder : Bool
  reminder_hours_before : Nat
  recurrence_type : RecurrenceType
  recurrence_interval : Nat
deriving DecidableEq, Repr

/-- `baseEventData` of `handleSubmit`: the shared insert payload; note
`parent_event_id` is absent from the object, hence null. -/
def baseEventData (petId userId : Nat) (form : EventFormData)
    (eventDateTime : DateTime) (recurrenceEndDate : Option DateTime)
    (photoUrl : Option String) : PetEventInsert :=
  { pet_id := petId
    user_id := userId
    title := form.title.trim
    event_type := form.event_type
    custom_type :=
      if form.event_type = "other" then strOrNone form.custom_type
      else Option.none
    location := strOrNone form.location
    description := strOrNone form.description
    event_date := eventDateTime
    photo_url := photoUrl
    is_reminder := form.is_reminder
    reminder_hours_before :=
      if form.is_reminder then some form.reminder_hours_before else Option.none
    recurrence_type := form.recurrence_type
    recurrence_interval :=
      if form.recurrence_type ≠ RecurrenceType.none
      then some form.recurrence_interval else Option.none
    recurrence_end_date := recurrenceEndDate
    parent_event_id := Option.none }

/-- The child rows inserted by the series-creation branch: one row per date
of `recurringDates.slice(1)`, spreading `baseEventData` with the row's own
`event_date` and `parent_event_id` pointing at the anchor; ids are assigned
sequentially by the store. -/
def childRows (base : PetEventInsert) (parentId : Nat) :
    Nat → List DateTime → List PetEvent
  | _, [] => []
  | nextId, d :: ds =>
    toRow nextId { base with event_date := d, parent_event_id := some parentId }
      :: childRows base parentId (nextId + 1) ds

/-- The series-creation branch of `handleSubmit` (new event with
`recurrence_type !== 'none'` and an end date): expand the dates, insert the
anchor (`baseEventData`), then — when more than one date — insert the child
rows. `anchorOk`/`childOk` model the store accepting or rejecting each
insert statement; a rejection throws, so nothing later runs and the run
reports failure. Returns the final table and the success flag. -/
def createSeriesRun (db : List PetEvent) (petId userId : Nat)
    (form : EventFormData) (eventDateTime recurrenceEndDate : DateTime)
    (photoUrl : Option String) (anchorId : Nat) (anchorOk childOk : Bool) :
    List PetEvent × Bool :=
  let base := baseEventData petId userId form eventDateTime
    (some recurrenceEndDate) photoUrl
  let recurringDates := generateRecurringDates eventDateTime recurrenceEndDate
    form.recurrence_type form.recurrence_interval
  if anchorOk then
    let db1 := db ++ [toRow anchorId base]
    if 1 < recurringDates.length then
      if childOk then
        (db1 ++ childRows base anchorId (anchorId + 1) recurringDates.tail, true)
      else
        (db1, false)
    else
      (db1, true)
  else
    (db, false)

lemma childRows_length (base : PetEventInsert) (parentId : Nat) :
    ∀ (i : Nat) (ds : List DateTime), (childRows base parentId i ds).length = ds.length := by
  intro i ds
  induction ds generalizing i with
  | nil => rfl
  | cons d ds ih => simp [childRows, ih]

lemma childRows_map_date (base : PetEventInsert) (parentId : Nat) :
    ∀ (i : Nat) (ds : List DateTime),
      (childRows base parentId i ds).map (fun r => r.event_date) = ds := by
  intro i ds
  induction ds generalizing i with
  | nil => rfl
  | cons d ds ih => simp [childRows, toRow, ih]

lemma childRows_fields (base : PetEventInsert) (parentId : Nat) :
    ∀ (i : Nat) (ds : List DateTime), ∀ r ∈ childRows base parentId i ds,
      r.parent_event_id = some parentId ∧ r.title = base.title ∧
        r.event_type = base.event_type ∧ r.custom_type = base.custom_type ∧
        r.location = base.location ∧ r.description = base.description ∧
        r.photo_url = base.photo_url ∧ r.is_reminder = base.is_reminder ∧
        r.reminder_hours_before = base.reminder_hours_before := by
  intro i ds
  induction ds generalizing i with
  | nil => intro r hr; simp [childRows] at hr
  | cons d ds ih =>
    intro r hr
    rcases List.mem_cons.mp hr with h | h
    · subst h; simp [toRow]
    · exact ih _ r h

lemma createSeriesRun_success_eq (db : List PetEvent) (petId userId : Nat)
    (form : EventFormData) (eventDateTime recurrenceEndDate : DateTime)
    (photoUrl : Option String) (anchorId : Nat) :
    createSeriesRun db petId userId form eventDateTime recurrenceEndDate
        photoUrl anchorId true true
      = (db ++ (toRow anchorId (baseEventData petId userId form eventDateTime
            (some recurrenceEndDate) photoUrl)
          :: childRows (baseEventData petId userId form eventDateTime
              (some recurrenceEndDate) photoUrl) anchorId (anchorId + 1)
            (generateRecurringDates eventDateTime recurrenceEndDate
              form.recurrence_type form.recurrence_interval).tail), true) := by
  by_cases hN : 1 < (generateRecurringDates eventDateTime recurrenceEndDate
      form.recurrence_type form.recurrence_interval).length
  · simp [createSeriesRun, hN]
  · have htail : (generateRecurringDates eventDateTime recurrenceEndDate
        form.recurrence_type form.recurrence_interval).tail = [] := by
      simp only [generateRecurringDates, List.length_cons, List.tail_cons] at hN ⊢
      have : (genLoop recurrenceEndDate form.recurrence_type
          form.recurrence_interval eventDateTime 365).length = 0 := by omega
      exact List.length_eq_zero.mp this
    simp [createSeriesRun, hN, htail, childRows]

/-! Part 7: claims about series creation. -/

/-- C2: a successful series-creation run whose expansion yields N dates
appends exactly N rows: first one anchor row with null `parent_event_id`,
carrying the first timestamp and the recurrence fields, then N−1 child
rows, each with `parent_event_id` equal to the anchor's id and its own
timestamp from the expansion, all N rows sharing identical descriptive and
reminder fields; the pre-existing table is untouched. -/
theorem createSeriesRun_persists_series (db : List PetEvent) (petId userId : Nat)
    (form : EventFormData) (eventDateTime recurrenceEndDate : DateTime)
    (photoUrl : Option String) (anchorId : Nat)
    (ht : form.recurrence_type ≠ RecurrenceType.none) :
    (createSeriesRun db petId userId form eventDateTime recurrenceEndDate
        photoUrl anchorId true true).2 = true ∧
    ((createSeriesRun db petId userId form eventDateTime recurrenceEndDate
        photoUrl anchorId true true).1).take db.length = db ∧
    (((createSeriesRun db petId userId form eventDateTime recurrenceEndDate
        photoUrl anchorId true true).1).drop db.length).map
        (fun r => r.event_date)
      = generateRecurringDates eventDateTime recurrenceEndDate
          form.recurrence_type form.recurrence_interval ∧
    (((createSeriesRun db petId userId form eventDateTime recurrenceEndDate
        photoUrl anchorId true true).1).drop db.length).filter
        (fun r => decide (r.parent_event_id = Option.none))
      = [toRow anchorId (baseEventData petId userId form eventDateTime
          (some recurrenceEndDate) photoUrl)] ∧
    (toRow anchorId (baseEventData petId userId form eventDateTime
        (some recurrenceEndDate) photoUrl)).event_date = eventDateTime ∧
    (toRow anchorId (baseEventData petId userId form eventDateTime
        (some recurrenceEndDate) photoUrl)).recurrence_type
      = form.recurrence_type ∧
    (toRow anchorId (baseEventData petId userId form eventDateTime
        (some recurrenceEndDate) photoUrl)).recurrence_interval
      = some form.recurrence_interval ∧
    (toRow anchorId (baseEventData petId userId form eventDateTime
        (some recurrenceEndDate) photoUrl)).recurrence_end_date
      = some recurrenceEndDate ∧
    (∀ r ∈ (((createSeriesRun db petId userId form eventDateTime
        recurrenceEndDate photoUrl anchorId true true).1).drop db.length).tail,
      r.parent_event_id = some anchorId) ∧
    (∀ r ∈ ((createSeriesRun db petId userId form eventDateTime
        recurrenceEndDate photoUrl anchorId true true).1).drop db.length,
      r.title = form.title.trim ∧ r.event_type = form.event_type ∧
      r.custom_type = (if form.event_type = "other" then strOrNone form.custom_type
        else Option.none) ∧
      r.location = strOrNone form.location ∧
      r.description = strOrNone form.description ∧
      r.photo_url = photoUrl ∧
      r.is_reminder = form.is_reminder ∧
      r.reminder_hours_before = (if form.is_reminder
        then some form.reminder_hours_before else Option.none)) := by
  rw [createSeriesRun_success_eq]
  have hfields := childRows_fields (baseEventData petId userId form eventDateTime
      (some recurrenceEndDate) photoUrl) anchorId (anchorId + 1)
      (generateRecurringDates eventDateTime recurrenceEndDate
        form.recurrence_type form.recurrence_interval).tail
  refine ⟨rfl, List.take_left _ _, ?_, ?_, rfl, rfl, ?_, rfl, ?_, ?_⟩
  · rw [List.drop_left]
    simp only [List.map_cons, childRows_map_date]
    rfl
  · rw [List.drop_left]
    rw [List.filter_cons_of_pos (by simp [toRow, baseEventData])]
    rw [List.filter_eq_nil_iff.mpr]
    intro r hr
    simp only [decide_eq_true_eq]
    rw [(hfields r hr).1]
    simp
  · simp [toRow, baseEventData, ht]
  · rw [List.drop_left]
    intro r hr
    exact (hfields r (by simpa using hr)).1
  · rw [List.drop_left]
    intro r hr
    rcases List.mem_cons.mp hr with h | h
    · subst h
      exact ⟨rfl, rfl, rfl, rfl, rfl, rfl, rfl, rfl⟩
    · obtain ⟨-, h2, h3, h4, h5, h6, h7, h8, h9⟩ := hfields r h
      exact ⟨h2, h3, h4, h5, h6, h7, h8, h9⟩

/-- A concrete creation request used by witnesses: a weekly vet-visit
reminder series over three weeks. -/
def sampleForm : EventFormData :=
  { title := "Checkup"
    event_type := "vet_visit"
    custom_type := ""
    location := ""
    description := ""
    is_reminder := true
    reminder_hours_before := 24
    recurrence_type := RecurrenceType.weekly
    recurrence_interval := 1 }

/-- C2 witness: the weekly sample request on an empty table — the run
succeeds and the persisted rows carry exactly the expanded timestamps. -/
theorem createSeriesRun_persists_series_witness :
    sampleForm.recurrence_type ≠ RecurrenceType.none ∧
    (createSeriesRun [] 1 2 sampleForm ⟨2025, 1, 1, 600⟩ ⟨2025, 1, 20, 1439⟩
        Option.none 10 true true).2 = true ∧
    ((createSeriesRun [] 1 2 sampleForm ⟨2025, 1, 1, 600⟩ ⟨2025, 1, 20, 1439⟩
          Option.none 10 true true).1).map (fun r => r.event_date)
      = generateRecurringDates ⟨2025, 1, 1, 600⟩ ⟨2025, 1, 20, 1439⟩
          sampleForm.recurrence_type sampleForm.recurrence_interval := by
  refine ⟨by decide, ?_, ?_⟩
  · exact (createSeriesRun_persists_series [] 1 2 sampleForm ⟨2025, 1, 1, 600⟩
      ⟨2025, 1, 20, 1439⟩ Option.none 10 (by decide)).1
  · have h := (createSeriesRun_persists_series [] 1 2 sampleForm
      ⟨2025, 1, 1, 600⟩ ⟨2025, 1, 20, 1439⟩ Option.none 10 (by decide)).2.2.1
    simpa using h

/-- C8 counterexample: on an empty table, with the anchor insert accepted
and the child insert rejected, the run reports failure but the anchor row
remains persisted without its children — the table is not rolled back to
its initial empty state, so series creation is not a single logical
transaction. -/
theorem createSeriesRun_rollback_counterexample :
    (createSeriesRun [] 1 2 sampleForm ⟨2025, 1, 1, 600⟩ ⟨2025, 1, 20, 1439⟩
        Option.none 10 true false).2 = false ∧
    (createSeriesRun [] 1 2 sampleForm ⟨2025, 1, 1, 600⟩ ⟨2025, 1, 20, 1439⟩
        Option.none 10 true false).1
      = [toRow 10 (baseEventData 1 2 sampleForm ⟨2025, 1, 1, 600⟩
          (some ⟨2025, 1, 20, 1439⟩) Option.none)] ∧
    (createSeriesRun [] 1 2 sampleForm ⟨2025, 1, 1, 600⟩ ⟨2025, 1, 20, 1439⟩
        Option.none 10 true false).1 ≠ [] := by
  refine ⟨by decide, rfl, by decide⟩

/-- C8 amended: when the child insert fails after a successful anchor
insert (expansion yielding more than one date), the run surfaces the
failure to the caller — it never reports success — but the anchor is not
rolled back: the final table is the initial one plus the orphaned anchor
row. -/
theorem createSeriesRun_childFailure_keepsAnchor (db : List PetEvent)
    (petId userId : Nat) (form : EventFormData)
    (eventDateTime recurrenceEndDate : DateTime) (photoUrl : Option String)
    (anchorId : Nat)
    (hN : 1 < (generateRecurringDates eventDateTime recurrenceEndDate
        form.recurrence_type form.recurrence_interval).length) :
    createSeriesRun db petId userId form eventDateTime recurrenceEndDate
        photoUrl anchorId true false
      = (db ++ [toRow anchorId (baseEventData petId userId form eventDateTime
          (some recurrenceEndDate) photoUrl)], false) := by
  simp [createSeriesRun, hN]

/-- C8 witness: the amended behaviour at the concrete weekly request. -/
theorem createSeriesRun_childFailure_keepsAnchor_witness :
    1 < (generateRecurringDates ⟨2025, 1, 1, 600⟩ ⟨2025, 1, 20, 1439⟩
        sampleForm.recurrence_type sampleForm.recurrence_interval).length ∧
    createSeriesRun [] 1 2 sampleForm ⟨2025, 1, 1, 600⟩ ⟨2025, 1, 20, 1439⟩
        Option.none 10 true false
      = ([] ++ [toRow 10 (baseEventData 1 2 sampleForm ⟨2025, 1, 1, 600⟩
          (some ⟨2025, 1, 20, 1439⟩) Option.none)], false) :=
  ⟨by decide, createSeriesRun_childFailure_keepsAnchor [] 1 2 sampleForm
    ⟨2025, 1, 1, 600⟩ ⟨2025, 1, 20, 1439⟩ Option.none 10 (by decide)⟩

/-! Part 8: the whole-series edit (`isSeriesEdit` branch of `handleSubmit`). -/

/-- The shared properties written by the series-edit update statement
(`.update({...})` — note: no `event_date`, no recurrence fields, no
`reminder_completed`). -/
structure SharedFields where
  title : String
  event_type : String
  custom_type : Option String
  location : Option String
  description : Option String
  is_reminder : Bool
  reminder_hours_before : Option Nat
  photo_url : Option String
deriving DecidableEq, Repr

/-- `allEventIds` of the series-edit branch: the edited event's id followed
by the ids of the rows whose `parent_event_id` equals it. -/
def allEventIds (db : List PetEvent) (eventId : Nat) : List Nat :=
  eventId :: (db.filter (fun e => decide (e.parent_event_id = some eventId))).map
    (fun e => e.id)

/-- Effect of the shared-field update statement on one row. -/
def applySharedUpdate (f : SharedFields) (e : PetEvent) : PetEvent :=
  { e with
    title := f.title
    event_type := f.event_type
    custom_type := f.custom_type
    location := f.location
    description := f.description
    is_reminder := f.is_reminder
    reminder_hours_before := f.reminder_hours_before
    photo_url := f.photo_url }

/-- The series-edit branch: resolve `allEventIds`, then apply one update
setting the shared fields on every row whose id is in that list. -/
def seriesEditRun (db : List PetEvent) (eventId : Nat) (f : SharedFields) :
    List PetEvent :=
  db.map (fun e => if e.id ∈ allEventIds db eventId then applySharedUpdate f e
    else e)

lemma forall₂_map_of_pointwise {α β : Type} (g : α → β) (P : α → β → Prop)
    (h : ∀ a, P a (g a)) : ∀ l : List α, List.Forall₂ P l (l.map g) := by
  intro l
  induction l with
  | nil => exact List.Forall₂.nil
  | cons a l ih => exact List.Forall₂.cons (h a) ih

/-- C4: the whole-series edit sets the shared fields to identical values on
every row of the series (the edited anchor and every row referencing it),
leaves every row's `event_date` and `reminder_completed` unchanged — in
fact every field outside the shared set — and leaves rows outside the
series entirely unchanged. -/
theorem seriesEditRun_frame (db : List PetEvent) (eventId : Nat)
    (f : SharedFields) :
    List.Forall₂ (fun e eNew =>
      eNew.event_date = e.event_date ∧
      eNew.reminder_completed = e.reminder_completed ∧
      eNew.recurrence_type = e.recurrence_type ∧
      eNew.recurrence_interval = e.recurrence_interval ∧
      eNew.recurrence_end_date = e.recurrence_end_date ∧
      eNew.parent_event_id = e.parent_event_id ∧
      eNew.id = e.id ∧
      (e.id ∈ allEventIds db eventId →
        eNew.title = f.title ∧ eNew.event_type = f.event_type ∧
        eNew.custom_type = f.custom_type ∧ eNew.location = f.location ∧
        eNew.description = f.description ∧ eNew.is_reminder = f.is_reminder ∧
        eNew.reminder_hours_before = f.reminder_hours_before ∧
        eNew.photo_url = f.photo_url) ∧
      (e.id ∉ allEventIds db eventId → eNew = e))
      db (seriesEditRun db eventId f) := by
  refine forall₂_map_of_pointwise _ _ ?_ db
  intro e
  by_cases hmem : e.id ∈ allEventIds db eventId <;>
    simp [hmem, applySharedUpdate]

/-- A concrete weekly series anchor row (id 1) used by witnesses. -/
def sampleAnchor : PetEvent :=
  { id := 1, pet_id := 5, user_id := 7, title := "Walk",
    event_type := "general", custom_type := Option.none,
    location := Option.none, description := Option.none,
    event_date := ⟨2025, 1, 1, 600⟩, photo_url := Option.none,
    is_reminder := false, reminder_hours_before := Option.none,
    recurrence_type := RecurrenceType.weekly, recurrence_interval := some 1,
    recurrence_end_date := some ⟨2025, 1, 8, 1439⟩,
    parent_event_id := Option.none, reminder_completed := false }

/-- A concrete child row (id 2) of the sample series. -/
def sampleChild : PetEvent :=
  { id := 2, pet_id := 5, user_id := 7, title := "Walk",
    event_type := "general", custom_type := Option.none,
    location := Option.none, description := Option.none,
    event_date := ⟨2025, 1, 8, 600⟩, photo_url := Option.none,
    is_reminder := false, reminder_hours_before := Option.none,
    recurrence_type := RecurrenceType.weekly, recurrence_interval := some 1,
    recurrence_end_date := some ⟨2025, 1, 8, 1439⟩,
    parent_event_id := some 1, reminder_completed := false }

/-- A concrete standalone row (id 3). -/
def sampleStandalone : PetEvent :=
  { id := 3, pet_id := 5, user_id := 7, title := "Bath",
    event_type := "grooming", custom_type := Option.none,
    location := Option.none, description := Option.none,
    event_date := ⟨2025, 2, 1, 600⟩, photo_url := Option.none,
    is_reminder := false, reminder_hours_before := Option.none,
    recurrence_type := RecurrenceType.none, recurrence_interval := Option.none,
    recurrence_end_date := Option.none,
    parent_event_id := Option.none, reminder_completed := false }

/-- A concrete three-row table used by witnesses: a weekly series anchor
(id 1) with one child (id 2), and an unrelated standalone row (id 3). -/
def sampleDb : List PetEvent :=
  [sampleAnchor, sampleChild, sampleStandalone]

/-- A concrete shared-field payload used by witnesses. -/
def sampleShared : SharedFields :=
  { title := "Long walk"
    event_type := "general"
    custom_type := Option.none
    location := some "Park"
    description := Option.none
    is_reminder := true
    reminder_hours_before := some 3
    photo_url := Option.none }

/-- C4 witness: a two-row series (anchor id 1, child id 2) plus an
unrelated row (id 3); the edit rewrites the shared fields of rows 1 and 2
and touches nothing else. -/
theorem seriesEditRun_frame_witness :
    List.Forall₂ (fun e eNew =>
      eNew.event_date = e.event_date ∧
      eNew.reminder_completed = e.reminder_completed ∧
      eNew.recurrence_type = e.recurrence_type ∧
      eNew.recurrence_interval = e.recurrence_interval ∧
      eNew.recurrence_end_date = e.recurrence_end_date ∧
      eNew.parent_event_id = e.parent_event_id ∧
      eNew.id = e.id ∧
      (e.id ∈ allEventIds sampleDb 1 →
        eNew.title = sampleShared.title ∧
        eNew.event_type = sampleShared.event_type ∧
        eNew.custom_type = sampleShared.custom_type ∧
        eNew.location = sampleShared.location ∧
        eNew.description = sampleShared.description ∧
        eNew.is_reminder = sampleShared.is_reminder ∧
        eNew.reminder_hours_before = sampleShared.reminder_hours_before ∧
        eNew.photo_url = sampleShared.photo_url) ∧
      (e.id ∉ allEventIds sampleDb 1 → eNew = e))
      sampleDb (seriesEditRun sampleDb 1 sampleShared) :=
  seriesEditRun_frame sampleDb 1 sampleShared

/-! Part 9: the read-side grouping (`useMemo` of `PetDetail.tsx`).

The JS `Map<string, {parent, children}>` is modelled as an
insertion-ordered association list of entries. -/

structure SeriesEntry where
  key : Nat
  parent : Option PetEvent
  children : List PetEvent
deriving DecidableEq, Repr

/-- `parentEventIds`: ids referenced by some row's `parent_event_id`, plus
ids of rows that set a recurrence (other than none/null) and have no
parent reference. Membership is what matters; the JS `Set` is modelled as
a list. -/
def parentEventIds (events : List PetEvent) : List Nat :=
  events.filterMap (fun e => e.parent_event_id) ++
    (events.filter (fun e => decide (e.recurrence_type ≠ RecurrenceType.none ∧
      e.parent_event_id = Option.none))).map (fun e => e.id)

/-- `seriesMap.set(e.id, {parent: e, ...})` when the entry may or may not
exist yet: update the `parent` field of the existing entry, or create one
with no children. -/
def setParentEntry (m : List SeriesEntry) (e : PetEvent) : List SeriesEntry :=
  if m.any (fun s => s.key == e.id) then
    m.map (fun s => if s.key = e.id then { s with parent := some e } else s)
  else
    m ++ [{ key := e.id, parent := some e, children := [] }]

/-- `seriesMap.get(p).children.push(e)`, creating a parentless placeholder
entry when the parent has not been seen yet. -/
def addChildEntry (m : List SeriesEntry) (p : Nat) (e : PetEvent) :
    List SeriesEntry :=
  if m.any (fun s => s.key == p) then
    m.map (fun s => if s.key = p then { s with children := s.children ++ [e] }
      else s)
  else
    m ++ [{ key := p, parent := Option.none, children := [e] }]

/-- One step of the grouping pass: a row with its own id in
`parentEventIds` and no parent reference becomes a parent entry; a row
referencing a known parent id is appended to that entry's children; other
rows are skipped. -/
def buildStep (pids : List Nat) (m : List SeriesEntry) (e : PetEvent) :
    List SeriesEntry :=
  if e.id ∈ pids ∧ e.parent_event_id = Option.none then
    setParentEntry m e
  else
    match e.parent_event_id with
    | some p => if p ∈ pids then addChildEntry m p e else m
    | Option.none => m

/-- The grouping pass over all events of a pet. -/
def buildSeriesMap (events : List PetEvent) : List SeriesEntry :=
  events.foldl (buildStep (parentEventIds events)) []

/-- `validSeries`: entries that found their parent, as (parent, children)
groups. -/
def validSeries (events : List PetEvent) : List (PetEvent × List PetEvent) :=
  (buildSeriesMap events).filterMap
    (fun s => s.parent.map (fun p => (p, s.children)))

/-- Grouping invariant: every entry's resolved parent is a root row
(null `parent_event_id`). -/
def ParentIsRoot (m : List SeriesEntry) : Prop :=
  ∀ s ∈ m, ∀ p, s.parent = some p → p.parent_event_id = Option.none

lemma setParentEntry_inv (m : List SeriesEntry) (e : PetEvent)
    (he : e.parent_event_id = Option.none) (h : ParentIsRoot m) :
    ParentIsRoot (setParentEntry m e) := by
  unfold setParentEntry
  split
  · intro s hs p hp
    obtain ⟨s0, hs0, rfl⟩ := List.mem_map.mp hs
    by_cases hk : s0.key = e.id
    · rw [if_pos hk] at hp
      simp only at hp
      cases hp
      exact he
    · rw [if_neg hk] at hp
      exact h s0 hs0 p hp
  · intro s hs p hp
    rcases List.mem_append.mp hs with h1 | h1
    · exact h s h1 p hp
    · simp only [List.mem_singleton] at h1
      subst h1
      simp only at hp
      cases hp
      exact he

lemma addChildEntry_inv (m : List SeriesEntry) (q : Nat) (e : PetEvent)
    (h : ParentIsRoot m) : ParentIsRoot (addChildEntry m q e) := by
  unfold addChildEntry
  split
  · intro s hs p hp
    obtain ⟨s0, hs0, rfl⟩ := List.mem_map.mp hs
    by_cases hk : s0.key = q
    · rw [if_pos hk] at hp
      simp only at hp
      exact h s0 hs0 p hp
    · rw [if_neg hk] at hp
      exact h s0 hs0 p hp
  · intro s hs p hp
    rcases List.mem_append.mp hs with h1 | h1
    · exact h s h1 p hp
    · simp only [List.mem_singleton] at h1
      subst h1
      simp only at hp
      cases hp
  -- the placeholder entry has no parent, so `some p` is impossible

lemma buildStep_inv (pids : List Nat) (e : PetEvent) (m : List SeriesEntry)
    (h : ParentIsRoot m) : ParentIsRoot (buildStep pids m e) := by
  unfold buildStep
  split
  · next hcond => exact setParentEntry_inv m e hcond.2 h
  · split
    · split
      · exact addChildEntry_inv m _ e h
      · exact h
    · exact h

lemma foldl_buildStep_inv (pids : List Nat) :
    ∀ (l : List PetEvent) (m : List SeriesEntry), ParentIsRoot m →
      ParentIsRoot (l.foldl (buildStep pids) m) := by
  intro l
  induction l with
  | nil => intro m h; exact h
  | cons e l ih => intro m h; exact ih _ (buildStep_inv pids e m h)

/-- C9: no child is ever treated as a series anchor. The read-side
grouping only ever resolves a group's parent to a row with null
`parent_event_id` (a row with a non-null parent reference is only ever
appended to its parent's children, never installed as a parent, even
though child rows copy the recurrence fields of `baseEventData`); and on
the write side, series creation gives every child row `parent_event_id`
equal to the anchor's id while the anchor payload itself carries a null
`parent_event_id`. -/
theorem validSeries_anchor_is_root :
    (∀ events : List PetEvent, ∀ g ∈ validSeries events,
      g.1.parent_event_id = Option.none) ∧
    (∀ (base : PetEventInsert) (parentId i : Nat) (ds : List DateTime),
      ∀ r ∈ childRows base parentId i ds, r.parent_event_id = some parentId) ∧
    (∀ (petId userId : Nat) (form : EventFormData) (dt : DateTime)
      (re : Option DateTime) (pu : Option String),
      (baseEventData petId userId form dt re pu).parent_event_id
        = Option.none) := by
  refine ⟨?_, ?_, ?_⟩
  · intro events g hg
    obtain ⟨s, hs, hmap⟩ := List.mem_filterMap.mp hg
    have hinv : ParentIsRoot (buildSeriesMap events) :=
      foldl_buildStep_inv (parentEventIds events) events []
        (by intro s hs; simp at hs)
    obtain ⟨p, hp, rfl⟩ := Option.map_eq_some'.mp hmap
    exact hinv s hs p hp
  · intro base parentId i ds r hr
    exact (childRows_fields base parentId i ds r hr).1
  · intro petId userId form dt re pu
    rfl

/-- C9 witness: the grouping of the concrete three-row table resolves the
series anchored at the parent row (id 1), and that anchor has a null
`parent_event_id`. -/
theorem validSeries_anchor_is_root_witness :
    (sampleAnchor, [sampleChild]) ∈ validSeries sampleDb ∧
    sampleAnchor.parent_event_id = Option.none :=
  ⟨by decide,
    validSeries_anchor_is_root.1 sampleDb (sampleAnchor, [sampleChild])
      (by decide)⟩

/-! Part 10: the date-shift dialog (`ShiftRecurringDialog.tsx`).

Timestamps are epoch milliseconds (a fixed-offset timezone, so the
`date-fns` calendar-day difference coincides with truncated division by
86400000). JS `Math.trunc` division and the JS `%` operator are
`Int.tdiv` and `Int.tmod` (both round toward zero, remainder taking the
dividend's sign). -/

namespace ShiftRecurringDialog

def msPerDay : Int := 86400000

def msPerHour : Int := 3600000

/-- The slice of a `pet_events` row the dialog reads and writes. -/
structure EventRow where
  id : Nat
  event_date : Int
deriving DecidableEq, Repr

/-- `date-fns` `differenceInDays a b`: full 24-hour periods, truncated
toward zero. -/
def differenceInDays (a b : Int) : Int := (a - b).tdiv msPerDay

/-- `date-fns` `differenceInHours a b`: full hours, truncated toward zero. -/
def differenceInHours (a b : Int) : Int := (a - b).tdiv msPerHour

/-- `date-fns` `addDays` on epoch time. -/
def addDays (t n : Int) : Int := t + n * msPerDay

/-- `date-fns` `addHours` on epoch time. -/
def addHours (t n : Int) : Int := t + n * msPerHour

/-- `daysDiff = differenceInDays(newDateTime, originalDate)`. -/
def daysDiff (newDateTime originalDate : Int) : Int :=
  differenceInDays newDateTime originalDate

/-- `hoursDiff = differenceInHours(newDateTime, originalDate) % 24`. -/
def hoursDiff (newDateTime originalDate : Int) : Int :=
  (differenceInHours newDateTime originalDate).tmod 24

/-- `futureEvents`: series members at or after the edited instance's
original timestamp (the edited instance included). -/
def futureEvents (allSeriesEvents : List EventRow) (originalDate : Int) :
    List EventRow :=
  allSeriesEvents.filter (fun e => decide (originalDate ≤ e.event_date))

/-- `handleShift`: with both deltas zero the dialog closes without writing;
otherwise every future event is written with its date advanced by
`daysDiff` days then `hoursDiff` hours. The returned list is the sequence
of `(id, new event_date)` updates issued. -/
def handleShift (allSeriesEvents : List EventRow)
    (originalDate newDateTime : Int) : List (Nat × Int) :=
  if daysDiff newDateTime originalDate = 0 ∧
      hoursDiff newDateTime originalDate = 0 then []
  else
    (futureEvents allSeriesEvents originalDate).map (fun e =>
      (e.id, addHours (addDays e.event_date (daysDiff newDateTime originalDate))
        (hoursDiff newDateTime originalDate)))

lemma tdiv_eq_zero_of_abs_lt {a b : Int} (_hb : 0 < b) (hlo : -b < a)
    (hhi : a < b) : a.tdiv b = 0 := by
  rcases le_or_lt 0 a with hp | hn
  · exact Int.tdiv_eq_zero_of_lt hp hhi
  · have h1 : (-a).tdiv b = 0 := Int.tdiv_eq_zero_of_lt (by omega) (by omega)
    have h2 : a = -(-a) := by ring
    rw [h2, Int.neg_tdiv, h1]
    rfl

lemma tdiv_mul_scale_nonneg (h : Int) (hp : 0 ≤ h) :
    (h * 3600000).tdiv 86400000 = h.tdiv 24 := by
  rw [Int.tdiv_eq_ediv (by positivity) (by norm_num),
    Int.tdiv_eq_ediv hp (by norm_num)]
  rw [show h * 3600000 = 3600000 * h by ring,
    show (86400000 : Int) = 3600000 * 24 by norm_num]
  exact Int.mul_ediv_mul_of_pos h 24 (by norm_num)

lemma tdiv_mul_scale (h : Int) :
    (h * 3600000).tdiv 86400000 = h.tdiv 24 := by
  rcases le_or_lt 0 h with hp | hn
  · exact tdiv_mul_scale_nonneg h hp
  · have h2 := tdiv_mul_scale_nonneg (-h) (by omega)
    calc (h * 3600000).tdiv 86400000
        = (-(-h * 3600000)).tdiv 86400000 := by ring_nf
      _ = -((-h * 3600000).tdiv 86400000) := Int.neg_tdiv _ _
      _ = -((-h).tdiv 24) := by rw [h2]
      _ = (-(-h)).tdiv 24 := (Int.neg_tdiv _ _).symm
      _ = h.tdiv 24 := by norm_num

/-- C10: the shift applies only the whole-day and whole-hour components of
the delta: each written timestamp is the member's original timestamp plus
`differenceInDays(new, original)` days plus
`differenceInHours(new, original) % 24` hours, the sub-hour remainder of
the delta being discarded; and a requested change of less than one hour in
magnitude makes both deltas zero and performs no writes at all. -/
theorem handleShift_truncates_delta (events : List EventRow)
    (originalDate newDateTime : Int) :
    (¬(daysDiff newDateTime originalDate = 0 ∧
        hoursDiff newDateTime originalDate = 0) →
      handleShift events originalDate newDateTime
        = (events.filter (fun e => decide (originalDate ≤ e.event_date))).map
            (fun e => (e.id,
              e.event_date + daysDiff newDateTime originalDate * msPerDay
                + hoursDiff newDateTime originalDate * msPerHour))) ∧
    (daysDiff newDateTime originalDate = 0 ∧
        hoursDiff newDateTime originalDate = 0 →
      handleShift events originalDate newDateTime = []) ∧
    (-msPerHour < newDateTime - originalDate →
      newDateTime - originalDate < msPerHour →
      daysDiff newDateTime originalDate = 0 ∧
      hoursDiff newDateTime originalDate = 0 ∧
      handleShift events originalDate newDateTime = []) := by
  refine ⟨?_, ?_, ?_⟩
  · intro hne
    rw [handleShift, if_neg hne]
    rfl
  · intro hz
    rw [handleShift, if_pos hz]
  · intro hlo hhi
    have hd : daysDiff newDateTime originalDate = 0 := by
      refine tdiv_eq_zero_of_abs_lt (b := msPerDay) (by norm_num [msPerDay]) ?_ ?_
      · simp only [msPerDay, msPerHour] at hlo ⊢
        omega
      · simp only [msPerDay, msPerHour] at hhi ⊢
        omega
    have hh : hoursDiff newDateTime originalDate = 0 := by
      have h0 : differenceInHours newDateTime originalDate = 0 :=
        tdiv_eq_zero_of_abs_lt (b := msPerHour) (by norm_num [msPerHour]) hlo hhi
      rw [hoursDiff, h0]
      rfl
    exact ⟨hd, hh, by rw [handleShift, if_pos ⟨hd, hh⟩]⟩

/-- C10 witness: a requested change of +30 minutes on a one-member series
yields zero day and hour deltas and no writes. -/
theorem handleShift_truncates_delta_witness :
    (-msPerHour < (1800000 : Int) - 0) ∧ ((1800000 : Int) - 0 < msPerHour) ∧
    (daysDiff 1800000 0 = 0 ∧ hoursDiff 1800000 0 = 0 ∧
      handleShift [⟨1, 0⟩] 0 1800000 = []) :=
  ⟨by decide, by decide,
    (handleShift_truncates_delta [⟨1, 0⟩] 0 1800000).2.2 (by decide) (by decide)⟩

/-- C3 counterexample: a date-shift request of +30 minutes on a series
whose member sits exactly at the edited instance's original timestamp: the
delta is nonzero, yet the code performs zero writes, so the member is not
moved by the delta as the claim requires for every date-shift operation. -/
theorem handleShift_sameDelta_counterexample :
    handleShift [⟨1, 0⟩] 0 1800000 = [] ∧ ((1800000 : Int) - 0 ≠ 0) := by
  exact ⟨by decide, by decide⟩

/-- C3 amended: for a date-shift whose delta is a whole number of hours
(in particular the claim's +2-days example), every member whose original
timestamp is at or after the edited instance's original timestamp is
written with its timestamp moved by exactly that delta, members strictly
before receive no write, and a zero delta performs zero writes. (A delta
with a sub-hour remainder is truncated to whole days and hours — see the
C10 theorem — so such a member is not moved by exactly the delta.) -/
theorem handleShift_wholeHourDelta (events : List EventRow)
    (originalDate newDateTime h : Int)
    (hdelta : newDateTime - originalDate = h * msPerHour) :
    (h ≠ 0 → handleShift events originalDate newDateTime
      = (events.filter (fun e => decide (originalDate ≤ e.event_date))).map
          (fun e => (e.id, e.event_date + (newDateTime - originalDate)))) ∧
    (h = 0 → handleShift events originalDate newDateTime = []) := by
  have hhours : differenceInHours newDateTime originalDate = h := by
    rw [differenceInHours, hdelta, msPerHour]
    exact Int.mul_tdiv_cancel h (by norm_num)
  have hdays : daysDiff newDateTime originalDate = h.tdiv 24 := by
    rw [daysDiff, differenceInDays, hdelta, msPerHour, msPerDay]
    exact tdiv_mul_scale h
  have hmod : hoursDiff newDateTime originalDate = h.tmod 24 := by
    rw [hoursDiff, hhours]
  have hid := Int.tdiv_add_tmod' h 24
  constructor
  · intro hne
    have hcond : ¬(daysDiff newDateTime originalDate = 0 ∧
        hoursDiff newDateTime originalDate = 0) := by
      rintro ⟨hd0, hh0⟩
      rw [hdays] at hd0
      rw [hmod] at hh0
      apply hne
      omega
    rw [handleShift, if_neg hcond]
    have hfun : (fun e : EventRow =>
        (e.id, addHours (addDays e.event_date
          (daysDiff newDateTime originalDate))
          (hoursDiff newDateTime originalDate)))
        = (fun e : EventRow =>
          (e.id, e.event_date + (newDateTime - originalDate))) := by
      funext e
      simp only [addHours, addDays, hdays, hmod, hdelta, msPerDay, msPerHour]
      have : h.tdiv 24 * 86400000 + h.tmod 24 * 3600000
          = (h.tdiv 24 * 24 + h.tmod 24) * 3600000 := by ring
      rw [Prod.mk.injEq]
      refine ⟨rfl, ?_⟩
      rw [add_assoc, this, hid]
    rw [hfun]
    rfl
  · intro h0
    subst h0
    have hd0 : daysDiff newDateTime originalDate = 0 := by
      rw [hdays]
      rfl
    have hh0 : hoursDiff newDateTime originalDate = 0 := by
      rw [hmod]
      rfl
    rw [handleShift, if_pos ⟨hd0, hh0⟩]

/-- The spec's concrete scenario: five weekly events, one week apart. -/
def weeklyEvents : List EventRow :=
  [⟨1, 0⟩, ⟨2, 604800000⟩, ⟨3, 1209600000⟩, ⟨4, 1814400000⟩,
   ⟨5, 2419200000⟩]

/-- C3 witness: shifting instance 3 of the five weekly events by exactly
+1 day (a whole-hour delta, h = 24) writes instances 3, 4 and 5 moved by
+1 day and leaves instances 1 and 2 without a write. -/
theorem handleShift_wholeHourDelta_witness :
    ((1296000000 : Int) - 1209600000 = 24 * msPerHour) ∧ ((24 : Int) ≠ 0) ∧
    handleShift weeklyEvents 1209600000 1296000000
      = (weeklyEvents.filter
          (fun e => decide ((1209600000 : Int) ≤ e.event_date))).map
          (fun e => (e.id, e.event_date + ((1296000000 : Int) - 1209600000))) :=
  ⟨by decide, by decide,
    (handleShift_wholeHourDelta weeklyEvents 1209600000 1296000000 24
      (by decide)).1 (by decide)⟩

end ShiftRecurringDialog

/-! Part 11: the reminder due-check
(`supabase/functions/send-reminder-emails/index.ts`).

Timestamps are epoch milliseconds; the JS floating-point division by
`1000 * 60 * 60` is modelled as exact rational division. -/

namespace SendReminderEmails

/-- The slice of a `pet_events` row the due-check reads. -/
structure ReminderRow where
  id : Nat
  event_date : Int
  is_reminder : Bool
  reminder_completed : Bool
  reminder_hours_before : Option Nat
deriving DecidableEq, Repr

/-- The database query: `is_reminder = true`, `reminder_completed = false`,
`event_date >= now`. -/
def upcomingReminders (db : List ReminderRow) (now : Int) : List ReminderRow :=
  db.filter (fun e => e.is_reminder && !e.reminder_completed &&
    decide (now ≤ e.event_date))

/-- `hoursBeforeEvent = (eventDate.getTime() - now.getTime()) / (1000*60*60)`. -/
def hoursBeforeEvent (now : Int) (e : ReminderRow) : ℚ :=
  ((e.event_date - now : Int) : ℚ) / (1000 * 60 * 60)

/-- `reminderHours = reminder.reminder_hours_before || 24`: JS `||` treats
both `null` and `0` as falsy. -/
def reminderHours (e : ReminderRow) : Nat :=
  match e.reminder_hours_before with
  | some n => if n = 0 then 24 else n
  | Option.none => 24

/-- `shouldSend`: the trailing one-hour slice of the lead window,
`hoursBeforeEvent <= reminderHours && hoursBeforeEvent > reminderHours - 1`. -/
def shouldSend (now : Int) (e : ReminderRow) : Bool :=
  decide (hoursBeforeEvent now e ≤ (reminderHours e : ℚ) ∧
    (reminderHours e : ℚ) - 1 < hoursBeforeEvent now e)

/-- `remindersToSend`: the query result filtered by `shouldSend`. -/
def remindersToSend (db : List ReminderRow) (now : Int) : List ReminderRow :=
  (upcomingReminders db now).filter (shouldSend now)

/-- C5: for an event whose reminder lead is a positive number of hours rh,
the due-check selects it exactly when it is flagged as a reminder, not yet
completed, has a strictly future timestamp, and now lies in the trailing
one-hour slice of the lead window: rh − 1 < (event − now, in hours) ≤ rh;
and an event with `reminder_completed = true` is never selected. -/
theorem remindersToSend_spec (db : List ReminderRow) (now : Int)
    (e : ReminderRow) (rh : Nat) (hrh : e.reminder_hours_before = some rh)
    (hpos : 1 ≤ rh) :
    (e ∈ remindersToSend db now ↔
      (e ∈ db ∧ e.is_reminder = true ∧ e.reminder_completed = false ∧
        now < e.event_date ∧
        (rh : ℚ) - 1 < hoursBeforeEvent now e ∧
        hoursBeforeEvent now e ≤ (rh : ℚ))) ∧
    (e.reminder_completed = true → e ∉ remindersToSend db now) := by
  have hrh2 : reminderHours e = rh := by
    rw [reminderHours, hrh]
    simp only
    rw [if_neg (by omega)]
  have hwin : (rh : ℚ) - 1 < hoursBeforeEvent now e → now < e.event_date := by
    intro hlt
    have hnn : (0 : ℚ) ≤ (rh : ℚ) - 1 := by
      have : (1 : ℚ) ≤ (rh : ℚ) := by exact_mod_cast hpos
      linarith
    have hq : (0 : ℚ) < hoursBeforeEvent now e := lt_of_le_of_lt hnn hlt
    rw [hoursBeforeEvent] at hq
    have hcast : (0 : ℚ) < ((e.event_date - now : Int) : ℚ) := by
      by_contra hc
      push_neg at hc
      have : ((e.event_date - now : Int) : ℚ) / (1000 * 60 * 60) ≤ 0 :=
        div_nonpos_iff.mpr (Or.inr ⟨hc, by norm_num⟩)
      linarith
    have : (0 : Int) < e.event_date - now := by exact_mod_cast hcast
    omega
  refine ⟨⟨?_, ?_⟩, ?_⟩
  · intro hmem
    rw [remindersToSend, List.mem_filter, upcomingReminders,
      List.mem_filter] at hmem
    obtain ⟨⟨hdb, hquery⟩, hsend⟩ := hmem
    rw [Bool.and_eq_true, Bool.and_eq_true] at hquery
    obtain ⟨⟨hir, hnc⟩, _hge⟩ := hquery
    rw [shouldSend, decide_eq_true_eq, hrh2] at hsend
    exact ⟨hdb, hir, by simpa using hnc, hwin hsend.2, hsend.2, hsend.1⟩
  · rintro ⟨hdb, hir, hnc, hfut, hlow, hhigh⟩
    rw [remindersToSend, List.mem_filter, upcomingReminders,
      List.mem_filter]
    refine ⟨⟨hdb, ?_⟩, ?_⟩
    · rw [Bool.and_eq_true, Bool.and_eq_true]
      exact ⟨⟨hir, by simp [hnc]⟩, by simp [le_of_lt hfut]⟩
    · rw [shouldSend, decide_eq_true_eq, hrh2]
      exact ⟨hhigh, hlow⟩
  · intro hc hmem
    rw [remindersToSend, List.mem_filter, upcomingReminders,
      List.mem_filter] at hmem
    obtain ⟨⟨_, hquery⟩, _⟩ := hmem
    rw [Bool.and_eq_true, Bool.and_eq_true] at hquery
    rw [hc] at hquery
    simpa using hquery.1.2

/-- C5 witness: an uncompleted reminder 24 hours ahead with a 24-hour
lead is selected (now is inside the (23, 24]-hour slice). -/
theorem remindersToSend_spec_witness :
    ((⟨1, 86400000, true, false, some 24⟩ : ReminderRow).reminder_hours_before
      = some 24) ∧ 1 ≤ 24 ∧
    (((⟨1, 86400000, true, false, some 24⟩ : ReminderRow)
        ∈ remindersToSend [⟨1, 86400000, true, false, some 24⟩] 0 ↔
      ((⟨1, 86400000, true, false, some 24⟩ : ReminderRow)
          ∈ [(⟨1, 86400000, true, false, some 24⟩ : ReminderRow)] ∧
        (⟨1, 86400000, true, false, some 24⟩ : ReminderRow).is_reminder = true ∧
        (⟨1, 86400000, true, false, some 24⟩ : ReminderRow).reminder_completed
          = false ∧
        (0 : Int) < (⟨1, 86400000, true, false, some 24⟩ : ReminderRow).event_date ∧
        ((24 : Nat) : ℚ) - 1
          < hoursBeforeEvent 0 ⟨1, 86400000, true, false, some 24⟩ ∧
        hoursBeforeEvent 0 ⟨1, 86400000, true, false, some 24⟩
          ≤ ((24 : Nat) : ℚ))) ∧
      ((⟨1, 86400000, true, false, some 24⟩ : ReminderRow).reminder_completed
          = true →
        (⟨1, 86400000, true, false, some 24⟩ : ReminderRow)
          ∉ remindersToSend [⟨1, 86400000, true, false, some 24⟩] 0)) :=
  ⟨rfl, by norm_num,
    remindersToSend_spec [⟨1, 86400000, true, false, some 24⟩] 0
      ⟨1, 86400000, true, false, some 24⟩ 24 rfl (by norm_num)⟩

end SendReminderEmails

end MyPetPals
